import Mathlib

/-!
Verification of the airplane runway allocation repository.

The development shallowly embeds the two greedy slot allocators
(`block_solve` in `solver.py`, modelled as `block_solve1`, and
`block_solve` in `block_solver.py`, modelled as `block_solve2`), the
validity checker `Solution.is_valid` and the deviation metrics
`Solution.get_objective` / `Solution.get_deviation` of `solver.py`.

Modelling conventions:
* Python integers are `Int`; Python `//` is `Int.fdiv` (floor division).
* Python list indexing (including negative-index wrap-around and
  `IndexError`) is `pyGet` / `pySet`, returning `none` on `IndexError`.
* A Python runtime exception (`IndexError`, `ZeroDivisionError`,
  `ValueError` from `min`/`max` of an empty list) makes the embedded
  function return `none`.
* Python `round` is round-half-to-even (`roundHalfEven`), applied to the
  exact rational value of the division; the `float` arithmetic in the
  source is exact at these magnitudes.
* In `solver.py`, `spacing = safety_time + 0 * (...)/num_blocks` equals
  `safety_time` exactly (the second summand is `0.0`), but raises
  `ZeroDivisionError` when `num_blocks = 0`; the embedding keeps the
  guard and uses `safety_time` for the spacing.
* The wall-clock reads (`time.time()`) of `solver.py` are explicit
  `startTime`/`endTime` parameters; they only enter `solving_time`.
* The `print` call of `block_solver.py` is modelled as an accumulated
  list of the printed aircraft indices, returned alongside the solution.
-/

namespace Airplane

/-- The dataset of `data_set.py`: global safety time, aircraft count and
the three per-aircraft time lists. -/
structure DataSet where
  safety_time : Int
  num_aircraft : Nat
  earliest : List Int
  target : List Int
  latest : List Int
deriving Repr, DecidableEq

/-- The `Solution` class of `solver.py` (the fields that carry data:
technique string, solving time and the arrival-time list; unassigned
aircraft keep the initial `-1`). -/
structure Solution1 where
  technique : String
  solving_time : Int
  arrival_times : List Int
deriving Repr, DecidableEq

/-- The `Solution` class of `solution.py`: aircraft count and the
arrival-time list initialised to `-1`. -/
structure Solution2 where
  n_planes : Nat
  arrival_times : List Int
deriving Repr, DecidableEq

/-- Python list-index resolution: a nonnegative index must be below the
length, a negative index wraps around by adding the length; out of
range is `none` (`IndexError`). -/
def pyIdx (len : Nat) (i : Int) : Option Nat :=
  if 0 ≤ i then (if i < (len : Int) then some i.toNat else none)
  else (if 0 ≤ i + (len : Int) then some (i + (len : Int)).toNat else none)

/-- Python list read `xs[i]`. -/
def pyGet (xs : List Int) (i : Int) : Option Int :=
  (pyIdx xs.length i).map (fun k => xs.getD k 0)

/-- Python list write `xs[i] = v`. -/
def pySet (xs : List Int) (i : Int) (v : Int) : Option (List Int) :=
  (pyIdx xs.length i).map (fun k => xs.set k v)

/-- Round-half-to-even of `n / den` for `den > 0` (Python `round`). -/
def roundPos (n den : Int) : Int :=
  let q := Int.fdiv n den
  let r := n - q * den
  if 2 * r < den then q
  else if den < 2 * r then q + 1
  else if q % 2 = 0 then q else q + 1

/-- Round-half-to-even of `n / den` for `den ≠ 0` (Python `round` on the
exact quotient). -/
def roundHalfEven (n den : Int) : Int :=
  if den < 0 then roundPos (-n) (-den) else roundPos n den

/-- Python `min` over an integer list (`none` on the empty list, which
raises `ValueError`). -/
def listMin : List Int → Option Int
  | [] => none
  | x :: xs => some (xs.foldl min x)

/-- Python `max` over an integer list (`none` on the empty list). -/
def listMax : List Int → Option Int
  | [] => none
  | x :: xs => some (xs.foldl max x)

/-! ## The allocator of `solver.py` (`block_solve`) -/

/-- The inner candidate loop of `block_solve` in `solver.py`:
for each `k` it tries `b1 = max(b0 - k, 0)` and then
`b2 = min(b0 + k, num_blocks - 1)`; a candidate is taken when its slot
is empty and its time lies inclusively inside the window.  The result is
`none` on `IndexError` and `some fb` for the Python `final_block`
(`-1` when the range is exhausted). -/
def search1 (blocks : List Int) (nb s m e l b0 : Int) : List Nat → Option Int
  | [] => some (-1)
  | k :: ks =>
    let b1 := max (b0 - (k : Int)) 0
    let b2 := min (b0 + (k : Int)) (nb - 1)
    let t1 := b1 * s + m
    let t2 := b2 * s + m
    match pyGet blocks b1 with
    | none => none
    | some v1 =>
      if v1 = -1 ∧ e ≤ t1 ∧ t1 ≤ l then some b1
      else
        match pyGet blocks b2 with
        | none => none
        | some v2 =>
          if v2 = -1 ∧ e ≤ t2 ∧ t2 ≤ l then some b2
          else search1 blocks nb s m e l b0 ks

/-- One iteration of the aircraft loop of `block_solve` in `solver.py`:
fetch the aircraft data, run the candidate search from the nominal block
`round((target - min_earliest) / spacing)`, and occupy the found block. -/
def step1 (d : DataSet) (m nb s : Int) (blocks : List Int) (i : Nat) : Option (List Int) :=
  match pyGet d.target (i : Int), pyGet d.earliest (i : Int), pyGet d.latest (i : Int) with
  | some t, some e, some l =>
    match search1 blocks nb s m e l (roundHalfEven (t - m) s) (List.range nb.toNat) with
    | none => none
    | some fb => if 0 ≤ fb then pySet blocks fb i else some blocks
  | _, _, _ => none

/-- The aircraft loop of `block_solve` in `solver.py`. -/
def solveGo1 (d : DataSet) (m nb s : Int) : List Nat → List Int → Option (List Int)
  | [], blocks => some blocks
  | i :: is, blocks =>
    match step1 d m nb s blocks i with
    | none => none
    | some blocks1 => solveGo1 d m nb s is blocks1

/-- The prologue of `block_solve` in `solver.py`: minimum earliest,
maximum latest, `num_blocks = interval // safety_time`.  `none` models
the `ZeroDivisionError` raised when `safety_time = 0` (in the `//`) or
when `num_blocks = 0` (in the spacing computation). -/
def setup1 (d : DataSet) : Option (Int × Int) :=
  match listMin d.earliest, listMax d.latest with
  | some m, some maxL =>
    if d.safety_time = 0 then none
    else if Int.fdiv (maxL - m) d.safety_time = 0 then none
    else some (m, Int.fdiv (maxL - m) d.safety_time)
  | _, _ => none

/-- Prologue plus aircraft loop of `block_solve` in `solver.py`,
returning `min_earliest`, `num_blocks` and the occupancy table. -/
def solveBlocks1 (d : DataSet) : Option (Int × Int × List Int) :=
  match setup1 d with
  | none => none
  | some (m, nb) =>
    match solveGo1 d m nb d.safety_time (List.range d.num_aircraft)
        (List.replicate nb.toNat (-1)) with
    | none => none
    | some blocks => some (m, nb, blocks)

/-- The solution-building loop of `block_solve` in `solver.py`: every
occupied block `j` writes `min_earliest + j * spacing` at the index
stored in the block (the `int(round(...))` is exact on these integers). -/
def build1Go (blocks : List Int) (m s : Int) : List Nat → List Int → Option (List Int)
  | [], acc => some acc
  | j :: js, acc =>
    match pyGet blocks (j : Int) with
    | none => none
    | some plane =>
      if plane ≠ -1 then
        match pySet acc plane (m + (j : Int) * s) with
        | none => none
        | some acc1 => build1Go blocks m s js acc1
      else build1Go blocks m s js acc

/-- `block_solve` of `solver.py`.  `startTime` and `endTime` are the two
`time.time()` reads; they only determine `solving_time`. -/
def block_solve1 (d : DataSet) (startTime endTime : Int) : Option Solution1 :=
  match solveBlocks1 d with
  | none => none
  | some (m, nb, blocks) =>
    match build1Go blocks m d.safety_time (List.range nb.toNat)
        (List.replicate d.num_aircraft (-1)) with
    | none => none
    | some arr => some ⟨"Block Assign", endTime - startTime, arr⟩

/-! ## The allocator of `block_solver.py` (`block_solve`) -/

/-- The inner candidate loop of `block_solve` in `block_solver.py`:
`b1 = b0 - k` and `b2 = b0 + k` are tried only when inside `0..nb-1`,
the window test is strict.  No exception can occur here. -/
def search2 (blocks : List Int) (nb s m e l b0 : Int) : List Nat → Int
  | [] => -1
  | k :: ks =>
    let b1 := b0 - (k : Int)
    let b2 := b0 + (k : Int)
    if 0 ≤ b1 ∧ b1 < nb ∧ blocks.getD b1.toNat 0 = -1 ∧
        e < b1 * s + m ∧ b1 * s + m < l then b1
    else if 0 ≤ b2 ∧ b2 < nb ∧ blocks.getD b2.toNat 0 = -1 ∧
        e < b2 * s + m ∧ b2 * s + m < l then b2
    else search2 blocks nb s m e l b0 ks

/-- One iteration of the aircraft loop of `block_solve` in
`block_solver.py`: the nominal block is `round(target / safety)` (the
`min_earliest` offset is not subtracted here); on failure the aircraft
index is appended to the print log. -/
def step2 (d : DataSet) (m nb s : Int) (blocks : List Int) (prints : List Nat)
    (i : Nat) : Option (List Int × List Nat) :=
  match pyGet d.target (i : Int), pyGet d.earliest (i : Int), pyGet d.latest (i : Int) with
  | some t, some e, some l =>
    if 0 ≤ search2 blocks nb s m e l (roundHalfEven t s) (List.range nb.toNat) then
      match pySet blocks
          (search2 blocks nb s m e l (roundHalfEven t s) (List.range nb.toNat)) i with
      | none => none
      | some blocks1 => some (blocks1, prints)
    else some (blocks, prints ++ [i])
  | _, _, _ => none

/-- The aircraft loop of `block_solve` in `block_solver.py`. -/
def solveGo2 (d : DataSet) (m nb s : Int) : List Nat → List Int → List Nat →
    Option (List Int × List Nat)
  | [], blocks, prints => some (blocks, prints)
  | i :: is, blocks, prints =>
    match step2 d m nb s blocks prints i with
    | none => none
    | some (blocks1, prints1) => solveGo2 d m nb s is blocks1 prints1

/-- Prologue plus aircraft loop of `block_solve` in `block_solver.py`.
There is no guard on `num_blocks`: a nonpositive count yields an empty
occupancy table and the loops do nothing. -/
def solveBlocks2 (d : DataSet) : Option (Int × Int × List Int × List Nat) :=
  match listMin d.earliest, listMax d.latest with
  | some m, some maxL =>
    if d.safety_time = 0 then none
    else
      match solveGo2 d m (Int.fdiv (maxL - m) d.safety_time) d.safety_time
          (List.range d.num_aircraft)
          (List.replicate (Int.fdiv (maxL - m) d.safety_time).toNat (-1)) [] with
      | none => none
      | some (blocks, prints) => some (m, Int.fdiv (maxL - m) d.safety_time, blocks, prints)
  | _, _ => none

/-- The solution-building loop of `block_solve` in `block_solver.py`:
`sol.arrival_times[blocks[i]] = min_earliest + i * safety` for EVERY
block, without testing `blocks[i] != -1`; an empty block therefore
writes through the Python index `-1` onto the last aircraft. -/
def build2Go (blocks : List Int) (m s : Int) : List Nat → List Int → Option (List Int)
  | [], acc => some acc
  | j :: js, acc =>
    match pyGet blocks (j : Int) with
    | none => none
    | some plane =>
      match pySet acc plane (m + (j : Int) * s) with
      | none => none
      | some acc1 => build2Go blocks m s js acc1

/-- `block_solve` of `block_solver.py`, returning the solution together
with the list of aircraft indices printed as having no spot. -/
def block_solve2 (d : DataSet) : Option (Solution2 × List Nat) :=
  match solveBlocks2 d with
  | none => none
  | some (m, nb, blocks, prints) =>
    match build2Go blocks m d.safety_time (List.range nb.toNat)
        (List.replicate d.num_aircraft (-1)) with
    | none => none
    | some arr => some (⟨d.num_aircraft, arr⟩, prints)

/-! ## Validator and metrics of `solver.py` -/

/-- `Solution.is_valid` of `solver.py`: for each index the window test
is inclusive, and the inner loop returns `False` as soon as some other
entry differs by MORE than the safety time (the comparison in the
source is `abs(arrival - other) > safety_time`, and the inner loop also
visits `k = i`). -/
def validLoop (d : DataSet) (arrivals : List Int) : List Nat → Option Bool
  | [] => some true
  | i :: is =>
    match pyGet d.earliest (i : Int), pyGet d.latest (i : Int) with
    | some e, some l =>
      let arrival := arrivals.getD i 0
      if arrival < e ∨ arrival > l then some false
      else if (List.range arrivals.length).any
          (fun k => decide (d.safety_time < |arrival - arrivals.getD k 0|)) then
        some false
      else validLoop d arrivals is
    | _, _ => none

/-- `Solution.is_valid` of `solver.py`. -/
def is_valid (d : DataSet) (arrivals : List Int) : Option Bool :=
  validLoop d arrivals (List.range arrivals.length)

/-- The summation loop shared verbatim by `Solution.get_objective` and
`Solution.get_deviation` of `solver.py`: it sums
`abs(arrival_times[i] - target[i])` over ALL indices of
`arrival_times`, including unassigned `-1` entries. -/
def objGo (d : DataSet) (arrivals : List Int) : List Nat → Int → Option Int
  | [], acc => some acc
  | i :: is, acc =>
    match pyGet d.target (i : Int) with
    | none => none
    | some t => objGo d arrivals is (acc + |arrivals.getD i 0 - t|)

/-- `Solution.get_objective` of `solver.py`. -/
def get_objective (d : DataSet) (arrivals : List Int) : Option Int :=
  objGo d arrivals (List.range arrivals.length) 0

/-- `Solution.get_deviation` of `solver.py`: the same sum divided by
`len(arrival_times)` (the TOTAL aircraft count), as an exact rational;
`none` models the `ZeroDivisionError` on an empty list. -/
def get_deviation (d : DataSet) (arrivals : List Int) : Option ℚ :=
  match objGo d arrivals (List.range arrivals.length) 0 with
  | none => none
  | some s =>
    if arrivals.length = 0 then none
    else some ((s : ℚ) / (arrivals.length : ℚ))

/-! ## Library-style helper lemmas -/

lemma getD_set_self (xs : List Int) (k : Nat) (v : Int) (h : k < xs.length) :
    (xs.set k v).getD k 0 = v := by
  rw [List.getD_eq_getElem _ _ (by simpa using h)]
  simp

lemma getD_set_ne (xs : List Int) (k i : Nat) (v : Int) (h : k ≠ i) :
    (xs.set k v).getD i 0 = xs.getD i 0 := by
  by_cases hi : i < xs.length
  · rw [List.getD_eq_getElem _ _ (by simpa using hi), List.getD_eq_getElem _ _ hi]
    exact List.getElem_set_ne h _
  · rw [List.getD_eq_default _ _ (by simpa using Nat.le_of_not_lt hi),
      List.getD_eq_default _ _ (Nat.le_of_not_lt hi)]

lemma getD_replicate (n : Nat) (v : Int) (i : Nat) (h : i < n) :
    (List.replicate n v).getD i 0 = v := by
  rw [List.getD_eq_getElem _ _ (by simpa using h)]
  simp

lemma pyIdx_lt {n : Nat} {i : Int} {k : Nat} (h : pyIdx n i = some k) : k < n := by
  unfold pyIdx at h
  split at h <;> split at h <;> simp_all <;> omega

lemma pyIdx_coe (n j : Nat) (h : j < n) : pyIdx n (j : Int) = some j := by
  unfold pyIdx
  rw [if_pos (by positivity), if_pos (by exact_mod_cast h)]
  simp

lemma pyIdx_neg_one (n : Nat) (h : 1 ≤ n) : pyIdx n (-1) = some (n - 1) := by
  unfold pyIdx
  rw [if_neg (by omega), if_pos (by omega)]
  congr 1
  omega

lemma pyGet_coe_eq_some {xs : List Int} {j : Nat} {v : Int}
    (h : pyGet xs (j : Int) = some v) : j < xs.length ∧ xs.getD j 0 = v := by
  unfold pyGet at h
  by_cases hj : j < xs.length
  · rw [pyIdx_coe _ _ hj] at h
    simpa using ⟨hj, by simpa using h⟩
  · rw [show pyIdx xs.length (j : Int) = none by
      unfold pyIdx
      rw [if_pos (by positivity), if_neg (by exact_mod_cast hj)]] at h
    simp at h

lemma pyGet_coe_of_lt (xs : List Int) (j : Nat) (h : j < xs.length) :
    pyGet xs (j : Int) = some (xs.getD j 0) := by
  unfold pyGet
  rw [pyIdx_coe _ _ h]
  rfl

lemma pyGet_nonneg_eq_some {xs : List Int} {i v : Int} (hi : 0 ≤ i)
    (h : pyGet xs i = some v) : i.toNat < xs.length ∧ xs.getD i.toNat 0 = v := by
  obtain ⟨j, hj⟩ := Int.eq_ofNat_of_zero_le hi
  subst hj
  have := pyGet_coe_eq_some h
  simpa using this

lemma pySet_nonneg_eq_some {xs ys : List Int} {i v : Int} (hi : 0 ≤ i)
    (h : pySet xs i v = some ys) :
    i.toNat < xs.length ∧ ys = xs.set i.toNat v := by
  unfold pySet at h
  obtain ⟨j, hj⟩ := Int.eq_ofNat_of_zero_le hi
  subst hj
  by_cases hjl : j < xs.length
  · rw [pyIdx_coe _ _ hjl] at h
    simp at h
    simpa using ⟨hjl, h.symm⟩
  · rw [show pyIdx xs.length (j : Int) = none by
      unfold pyIdx
      rw [if_pos (by positivity), if_neg (by exact_mod_cast hjl)]] at h
    simp at h

lemma pySet_eq_some {xs ys : List Int} {i v : Int} (h : pySet xs i v = some ys) :
    ∃ k : Nat, pyIdx xs.length i = some k ∧ ys = xs.set k v := by
  unfold pySet at h
  cases hk : pyIdx xs.length i with
  | none => rw [hk] at h; simp at h
  | some k =>
    rw [hk] at h
    simp at h
    exact ⟨k, rfl, h.symm⟩

lemma pySet_length {xs ys : List Int} {i v : Int} (h : pySet xs i v = some ys) :
    ys.length = xs.length := by
  obtain ⟨k, -, hy⟩ := pySet_eq_some h
  simp [hy]

/-! ## Soundness of the inner search of `solver.py` -/

lemma search1_sound {blocks : List Int} {nb s m e l b0 : Int} :
    ∀ {ks : List Nat} {fb : Int}, search1 blocks nb s m e l b0 ks = some fb → 0 ≤ fb →
      pyGet blocks fb = some (-1) ∧ e ≤ fb * s + m ∧ fb * s + m ≤ l := by
  intro ks
  induction ks with
  | nil =>
    intro fb h hfb
    simp only [search1, Option.some.injEq] at h
    omega
  | cons k ks ih =>
    intro fb h hfb
    simp only [search1] at h
    split at h
    · exact absurd h (by simp)
    · rename_i v1 hg1
      split at h
      · rename_i hcond1
        obtain rfl : max (b0 - (k : Int)) 0 = fb := by simpa using h
        exact ⟨by rw [hg1, hcond1.1], hcond1.2.1, hcond1.2.2⟩
      · split at h
        · exact absurd h (by simp)
        · rename_i v2 hg2
          split at h
          · rename_i hcond2
            obtain rfl : min (b0 + (k : Int)) (nb - 1) = fb := by simpa using h
            exact ⟨by rw [hg2, hcond2.1], hcond2.2.1, hcond2.2.2⟩
          · exact ih h hfb

/-! ## Invariants of the aircraft loop of `solver.py` -/

lemma setup1_props {d : DataSet} {m nb : Int} (h : setup1 d = some (m, nb)) :
    d.safety_time ≠ 0 ∧ nb ≠ 0 := by
  unfold setup1 at h
  split at h
  · rename_i mm maxL hmin hmax
    split at h
    · exact absurd h (by simp)
    · rename_i hs
      split at h
      · exact absurd h (by simp)
      · rename_i hnb
        simp only [Option.some.injEq, Prod.mk.injEq] at h
        exact ⟨hs, h.2 ▸ hnb⟩
  · exact absurd h (by simp)

/-- Invariant of the occupancy table of `block_solve` in `solver.py`:
every occupied block stores an aircraft index whose window data exists
and whose block time lies inclusively inside its window. -/
def BlocksOK (d : DataSet) (m s : Int) (blocks : List Int) : Prop :=
  ∀ j : Nat, j < blocks.length → blocks.getD j 0 ≠ -1 →
    ∃ p : Nat, blocks.getD j 0 = (p : Int) ∧ p < d.num_aircraft ∧
      ∃ e l, pyGet d.earliest (p : Int) = some e ∧ pyGet d.latest (p : Int) = some l ∧
        e ≤ (j : Int) * s + m ∧ (j : Int) * s + m ≤ l

lemma step1_ok {d : DataSet} {m nb s : Int} {blocks blocks1 : List Int} {i : Nat}
    (hstep : step1 d m nb s blocks i = some blocks1)
    (hi : i < d.num_aircraft) (hok : BlocksOK d m s blocks) :
    BlocksOK d m s blocks1 ∧ blocks1.length = blocks.length := by
  unfold step1 at hstep
  split at hstep
  case h_2 => exact absurd hstep (by simp)
  rename_i t e l ht he hl
  split at hstep
  · exact absurd hstep (by simp)
  · rename_i fb hsearch
    split at hstep
    · rename_i hfb
      have hsound := search1_sound hsearch hfb
      have hset := pySet_nonneg_eq_some hfb hstep
      obtain ⟨hlt, rfl⟩ := hset
      refine ⟨?_, by simp⟩
      intro j hj hne
      rw [List.length_set] at hj
      by_cases hji : j = fb.toNat
      · subst hji
        rw [getD_set_self _ _ _ hlt] at hne ⊢
        refine ⟨i, rfl, hi, e, l, he, hl, ?_, ?_⟩
        · have : ((fb.toNat : Nat) : Int) = fb := Int.toNat_of_nonneg hfb
          rw [this]
          exact hsound.2.1
        · have : ((fb.toNat : Nat) : Int) = fb := Int.toNat_of_nonneg hfb
          rw [this]
          exact hsound.2.2
      · rw [getD_set_ne _ _ _ _ (fun hh => hji hh.symm)] at hne ⊢
        exact hok j hj hne
    · obtain rfl : blocks = blocks1 := by simpa using hstep
      exact ⟨hok, rfl⟩

lemma solveGo1_ok {d : DataSet} {m nb s : Int} :
    ∀ {is : List Nat} {blocks blocks1 : List Int},
      solveGo1 d m nb s is blocks = some blocks1 →
      (∀ i ∈ is, i < d.num_aircraft) → BlocksOK d m s blocks →
      BlocksOK d m s blocks1 ∧ blocks1.length = blocks.length := by
  intro is
  induction is with
  | nil =>
    intro blocks blocks1 h _ hok
    obtain rfl : blocks = blocks1 := by simpa [solveGo1] using h
    exact ⟨hok, rfl⟩
  | cons i is ih =>
    intro blocks blocks1 h hmem hok
    simp only [solveGo1] at h
    split at h
    · exact absurd h (by simp)
    · rename_i blocks2 hstep
      have h1 := step1_ok hstep (hmem i (by simp)) hok
      have h2 := ih h (fun x hx => hmem x (by simp [hx])) h1.1
      exact ⟨h2.1, h2.2.trans h1.2⟩

/-! ## The solution-building loop of `solver.py` -/

lemma build1Go_char {blocks : List Int} {m s : Int}
    (hnn : ∀ j : Nat, j < blocks.length → blocks.getD j 0 ≠ -1 → 0 ≤ blocks.getD j 0) :
    ∀ {js : List Nat} {acc out : List Int}, build1Go blocks m s js acc = some out →
      ∀ i : Nat, out.getD i 0 = acc.getD i 0 ∨
        ∃ j ∈ js, j < blocks.length ∧ blocks.getD j 0 = (i : Int) ∧
          out.getD i 0 = m + (j : Int) * s := by
  intro js
  induction js with
  | nil =>
    intro acc out h i
    obtain rfl : acc = out := by simpa [build1Go] using h
    exact Or.inl rfl
  | cons j js ih =>
    intro acc out h i
    simp only [build1Go] at h
    split at h
    · exact absurd h (by simp)
    · rename_i plane hg
      obtain ⟨hjlt, hjval⟩ := pyGet_coe_eq_some hg
      split at h
      · rename_i hne
        split at h
        · exact absurd h (by simp)
        · rename_i acc1 hset
          have hpos : 0 ≤ plane := hjval ▸ hnn j hjlt (hjval ▸ hne)
          obtain ⟨hplt, rfl⟩ := pySet_nonneg_eq_some hpos hset
          rcases ih h i with hsame | ⟨j1, hj1, hrest⟩
          · by_cases hip : plane.toNat = i
            · subst hip
              rw [hsame, getD_set_self _ _ _ hplt]
              refine Or.inr ⟨j, by simp, hjlt, ?_, rfl⟩
              rw [hjval]
              exact (Int.toNat_of_nonneg hpos).symm
            · rw [hsame, getD_set_ne _ _ _ _ hip]
              exact Or.inl rfl
          · exact Or.inr ⟨j1, by simp [hj1], hrest⟩
      · rcases ih h i with hsame | ⟨j1, hj1, hrest⟩
        · exact Or.inl hsame
        · exact Or.inr ⟨j1, by simp [hj1], hrest⟩

lemma build1Go_length {blocks : List Int} {m s : Int} :
    ∀ {js : List Nat} {acc out : List Int}, build1Go blocks m s js acc = some out →
      out.length = acc.length := by
  intro js
  induction js with
  | nil =>
    intro acc out h
    obtain rfl : acc = out := by simpa [build1Go] using h
    rfl
  | cons j js ih =>
    intro acc out h
    simp only [build1Go] at h
    split at h
    · exact absurd h (by simp)
    · rename_i plane hg
      split at h
      · split at h
        · exact absurd h (by simp)
        · rename_i acc1 hset
          rw [ih h, pySet_length hset]
      · exact ih h

/-! ## Characterisation of the output of `block_solve` in `solver.py` -/

lemma block_solve1_char {d : DataSet} {startT endT : Int} {sol : Solution1}
    (h : block_solve1 d startT endT = some sol) :
    d.safety_time ≠ 0 ∧ sol.arrival_times.length = d.num_aircraft ∧
    ∃ m nb blocks, solveBlocks1 d = some (m, nb, blocks) ∧
      BlocksOK d m d.safety_time blocks ∧
      ∀ i : Nat, i < d.num_aircraft →
        sol.arrival_times.getD i 0 = -1 ∨
        ∃ j : Nat, j < blocks.length ∧ blocks.getD j 0 = (i : Int) ∧
          sol.arrival_times.getD i 0 = m + (j : Int) * d.safety_time := by
  unfold block_solve1 at h
  split at h
  · exact absurd h (by simp)
  · rename_i x m nb blocks hblocks
    split at h
    · exact absurd h (by simp)
    · rename_i arr hbuild
      obtain rfl : sol = ⟨"Block Assign", endT - startT, arr⟩ := by
        simpa using h.symm
      have hset : setup1 d = some (m, nb) ∧
          solveGo1 d m nb d.safety_time (List.range d.num_aircraft)
            (List.replicate nb.toNat (-1)) = some blocks := by
        unfold solveBlocks1 at hblocks
        split at hblocks
        · exact absurd hblocks (by simp)
        · rename_i y m1 nb1 hsetup
          split at hblocks
          · exact absurd hblocks (by simp)
          · rename_i blocks1 hgo
            simp only [Option.some.injEq, Prod.mk.injEq] at hblocks
            obtain ⟨rfl, rfl, rfl⟩ := hblocks
            exact ⟨hsetup, hgo⟩
      have hs0 := setup1_props hset.1
      have hinit : BlocksOK d m d.safety_time (List.replicate nb.toNat (-1)) := by
        intro j hj hne
        rw [List.length_replicate] at hj
        exact absurd (getD_replicate _ _ _ hj) hne
      have hgo := solveGo1_ok hset.2 (fun i hi => List.mem_range.mp hi) hinit
      have hblen : blocks.length = nb.toNat := by
        rw [hgo.2, List.length_replicate]
      have hnn : ∀ j : Nat, j < blocks.length → blocks.getD j 0 ≠ -1 →
          0 ≤ blocks.getD j 0 := by
        intro j hj hne
        obtain ⟨p, hp, -⟩ := hgo.1 j hj hne
        rw [hp]
        positivity
      have hchar := build1Go_char hnn hbuild
      refine ⟨hs0.1, ?_, m, nb, blocks, ?_, hgo.1, ?_⟩
      · simp [build1Go_length hbuild]
      · simp [solveBlocks1, hset.1, hset.2]
      · intro i hi
        rcases hchar i with hsame | ⟨j, hj, hjlt, hjv, hval⟩
        · refine Or.inl ?_
          show arr.getD i 0 = -1
          rw [hsame]
          exact getD_replicate _ _ _ hi
        · refine Or.inr ⟨j, hjlt, hjv, hval⟩

/-! ## Concrete datasets used as counterexamples and witnesses -/

/-- One aircraft whose window starts exactly at a slot time. -/
def dsA : DataSet := ⟨10, 1, [0], [0], [10]⟩

/-- The solution `block_solve` of `solver.py` returns on `dsA`. -/
def solA : Solution1 := ⟨"Block Assign", 0, [0]⟩

/-- Two aircraft landing in two distinct slots. -/
def dsB : DataSet := ⟨10, 2, [0, 0], [0, 10], [20, 20]⟩

/-- The solution `block_solve` of `solver.py` returns on `dsB`. -/
def solB : Solution1 := ⟨"Block Assign", 0, [0, 10]⟩

/-- Two aircraft with wide windows; arrivals `[0, 5]` violate the
safety separation of `10` while staying inside both windows. -/
def dsC1 : DataSet := ⟨10, 2, [0, 0], [0, 5], [20, 20]⟩

/-- A degenerate dataset: the whole span `max_latest - min_earliest = 5`
is smaller than the safety time `10`, so `num_blocks = 0`. -/
def dsC3 : DataSet := ⟨10, 1, [0], [0], [5]⟩

/-- One aircraft whose target `19` rounds to nominal block `2` while
only blocks `0..0` exist (`num_blocks = 1`). -/
def dsC5 : DataSet := ⟨10, 1, [0], [19], [19]⟩

/-- One aircraft with target `5`; with the aircraft unassigned
(`arrival = -1`) the deviation sum counts `|-1 - 5| = 6`. -/
def dsC6 : DataSet := ⟨10, 1, [0], [5], [20]⟩

/-- The empty dataset (zero aircraft). -/
def dsEmpty : DataSet := ⟨10, 0, [], [], []⟩

/-- Two aircraft; aircraft `0` fits no block (its window `(0, 3)`
contains no slot time strictly), aircraft `1` lands in block `1`. -/
def dsC8 : DataSet := ⟨10, 2, [0, 0], [0, 0], [3, 20]⟩

/-- Two aircraft occupying blocks `1` and `2`; block `0` stays empty,
and the last aircraft sits in a block AFTER the empty one. -/
def dsC9 : DataSet := ⟨10, 2, [0, 0], [10, 20], [30, 30]⟩

/-- Two aircraft; aircraft `0` takes block `1`, aircraft `1` fits no
block, blocks `0` and `2` stay empty. -/
def dsC9w : DataSet := ⟨10, 2, [0, 0], [10, 10], [30, 11]⟩

/-- The solution `block_solve` of `block_solver.py` returns on `dsC9w`. -/
def solC9w : Solution2 := ⟨2, [10, 20]⟩

/-! ## The candidate search as the spec describes it (claim C5) -/

/-- Modelled from the spec: claim C5 describes the candidate search
with BOTH candidates clamped into `0..num_blocks-1`
(`b1 = clamp(b0-k, 0, num_blocks-1)` before `b2 = clamp(b0+k, 0,
num_blocks-1)`), taking the first empty candidate whose slot time lies
in the window (the window test here is the inclusive one used by the code;
the strict-versus-inclusive boundary policy belongs to claim C2).
`none` means the range was exhausted with no candidate. -/
def clampedSearch (blocks : List Int) (nb s m e l b0 : Int) : List Nat → Option Int
  | [] => none
  | k :: ks =>
    if blocks.getD (max (min (b0 - (k : Int)) (nb - 1)) 0).toNat 0 = -1 ∧
        e ≤ max (min (b0 - (k : Int)) (nb - 1)) 0 * s + m ∧
        max (min (b0 - (k : Int)) (nb - 1)) 0 * s + m ≤ l then
      some (max (min (b0 - (k : Int)) (nb - 1)) 0)
    else if blocks.getD (max (min (b0 + (k : Int)) (nb - 1)) 0).toNat 0 = -1 ∧
        e ≤ max (min (b0 + (k : Int)) (nb - 1)) 0 * s + m ∧
        max (min (b0 + (k : Int)) (nb - 1)) 0 * s + m ≤ l then
      some (max (min (b0 + (k : Int)) (nb - 1)) 0)
    else clampedSearch blocks nb s m e l b0 ks

lemma pyGet_in_range {xs : List Int} {i : Int} (h0 : 0 ≤ i) (h1 : i < (xs.length : Int)) :
    pyGet xs i = some (xs.getD i.toNat 0) := by
  unfold pyGet pyIdx
  rw [if_pos h0, if_pos h1]
  rfl

/-! ## The solution-building loop of `block_solver.py` -/

lemma build2Go_preserve {blocks : List Int} {m s : Int} :
    ∀ {js : List Nat} {acc out : List Int}, build2Go blocks m s js acc = some out →
      ∀ c : Nat, (∀ j ∈ js, pyIdx acc.length (blocks.getD j 0) ≠ some c) →
      out.getD c 0 = acc.getD c 0 := by
  intro js
  induction js with
  | nil =>
    intro acc out h c _
    obtain rfl : acc = out := by simpa [build2Go] using h
    rfl
  | cons j js ih =>
    intro acc out h c hno
    simp only [build2Go] at h
    split at h
    · exact absurd h (by simp)
    · rename_i plane hg
      split at h
      · exact absurd h (by simp)
      · rename_i acc1 hset
        obtain ⟨hjlt, hjval⟩ := pyGet_coe_eq_some hg
        obtain ⟨k0, hk0, rfl⟩ := pySet_eq_some hset
        have hkc : k0 ≠ c := by
          intro hkc
          exact hno j (by simp) (by rw [hjval, hk0, hkc])
        have hlen1 : (acc.set k0 (m + (j : Int) * s)).length = acc.length := by simp
        rw [ih h c (by intro j1 hj1 hw; exact hno j1 (by simp [hj1]) (by rw [← hlen1]; exact hw))]
        exact getD_set_ne _ _ _ _ hkc

lemma build2Go_lastwrite {blocks : List Int} {m s : Int} :
    ∀ {js : List Nat} {acc out : List Int}, build2Go blocks m s js acc = some out →
      ∀ (j c : Nat), j ∈ js → List.Pairwise (· < ·) js →
        pyIdx acc.length (blocks.getD j 0) = some c →
        (∀ j1 ∈ js, pyIdx acc.length (blocks.getD j1 0) = some c → j1 ≤ j) →
        out.getD c 0 = m + (j : Int) * s := by
  intro js
  induction js with
  | nil =>
    intro acc out _ j c hmem
    exact absurd hmem (by simp)
  | cons j0 js ih =>
    intro acc out h j c hmem hpw hw hmax
    simp only [build2Go] at h
    split at h
    · exact absurd h (by simp)
    · rename_i plane hg
      split at h
      · exact absurd h (by simp)
      · rename_i acc1 hset
        obtain ⟨hj0lt, hj0val⟩ := pyGet_coe_eq_some hg
        obtain ⟨k0, hk0, rfl⟩ := pySet_eq_some hset
        have hlen1 : (acc.set k0 (m + (j0 : Int) * s)).length = acc.length := by simp
        rcases List.mem_cons.mp hmem with rfl | hmemtl
        · -- the head is the last writer of cell c
          have hk0c : k0 = c := by
            rw [hj0val] at hw
            rw [hk0] at hw
            exact Option.some.inj hw
          subst hk0c
          have hclt : k0 < acc.length := pyIdx_lt hk0
          have hnowrite : ∀ j1 ∈ js,
              pyIdx (acc.set k0 (m + (j : Int) * s)).length (blocks.getD j1 0) ≠ some k0 := by
            intro j1 hj1 hw1
            have hle : j1 ≤ j := hmax j1 (by simp [hj1]) (by rw [← hlen1]; exact hw1)
            have hlt : j < j1 := (List.pairwise_cons.mp hpw).1 j1 hj1
            omega
          rw [build2Go_preserve h k0 hnowrite]
          exact getD_set_self _ _ _ hclt
        · -- the last writer sits in the tail
          refine ih h j c hmemtl (List.Pairwise.of_cons hpw) ?_ ?_
          · rw [hlen1]; exact hw
          · intro j1 hj1 hw1
            exact hmax j1 (by simp [hj1]) (by rw [← hlen1]; exact hw1)

/-! ## Invariants of the aircraft loop of `block_solver.py` -/

/-- Every occupied block of `block_solver.py` table stores an
aircraft index below the aircraft count. -/
def Blocks2Entries (n : Nat) (blocks : List Int) : Prop :=
  ∀ j : Nat, j < blocks.length → blocks.getD j 0 ≠ -1 →
    ∃ p : Nat, blocks.getD j 0 = (p : Int) ∧ p < n

lemma step2_entries {d : DataSet} {m nb s : Int} {blocks blocks1 : List Int}
    {prints prints1 : List Nat} {i : Nat}
    (h : step2 d m nb s blocks prints i = some (blocks1, prints1))
    (hi : i < d.num_aircraft) (hok : Blocks2Entries d.num_aircraft blocks) :
    Blocks2Entries d.num_aircraft blocks1 ∧ blocks1.length = blocks.length := by
  unfold step2 at h
  split at h
  case h_2 => exact absurd h (by simp)
  rename_i t e l ht he hl
  split at h
  · rename_i hfb
    split at h
    · exact absurd h (by simp)
    · rename_i blocks2 hset
      simp only [Option.some.injEq, Prod.mk.injEq] at h
      obtain ⟨rfl, rfl⟩ := h
      obtain ⟨hlt, rfl⟩ := pySet_nonneg_eq_some hfb hset
      refine ⟨?_, by simp⟩
      intro j hj hne
      rw [List.length_set] at hj
      by_cases hji : j =
        (search2 blocks nb s m e l (roundHalfEven t s) (List.range nb.toNat)).toNat
      · subst hji
        rw [getD_set_self _ _ _ hlt]
        exact ⟨i, rfl, hi⟩
      · rw [getD_set_ne _ _ _ _ (fun hh => hji hh.symm)] at hne ⊢
        exact hok j hj hne
  · simp only [Option.some.injEq, Prod.mk.injEq] at h
    obtain ⟨rfl, rfl⟩ := h
    exact ⟨hok, rfl⟩

lemma solveGo2_entries {d : DataSet} {m nb s : Int} :
    ∀ {is : List Nat} {blocks blocks1 : List Int} {prints prints1 : List Nat},
      solveGo2 d m nb s is blocks prints = some (blocks1, prints1) →
      (∀ i ∈ is, i < d.num_aircraft) → Blocks2Entries d.num_aircraft blocks →
      Blocks2Entries d.num_aircraft blocks1 ∧ blocks1.length = blocks.length := by
  intro is
  induction is with
  | nil =>
    intro blocks blocks1 prints prints1 h _ hok
    simp only [solveGo2, Option.some.injEq, Prod.mk.injEq] at h
    obtain ⟨rfl, rfl⟩ := h
    exact ⟨hok, rfl⟩
  | cons i is ih =>
    intro blocks blocks1 prints prints1 h hmem hok
    simp only [solveGo2] at h
    split at h
    · exact absurd h (by simp)
    · rename_i x blocks2 prints2 hstep
      have h1 := step2_entries hstep (hmem i (by simp)) hok
      have h2 := ih h (fun x hx => hmem x (by simp [hx])) h1.1
      exact ⟨h2.1, h2.2.trans h1.2⟩

lemma solveBlocks2_parts {d : DataSet} {m nb : Int} {blocks : List Int}
    {prints : List Nat} (h : solveBlocks2 d = some (m, nb, blocks, prints)) :
    d.safety_time ≠ 0 ∧
    solveGo2 d m nb d.safety_time (List.range d.num_aircraft)
      (List.replicate nb.toNat (-1)) [] = some (blocks, prints) := by
  unfold solveBlocks2 at h
  split at h
  · rename_i m1 maxL hmin hmax
    split at h
    · exact absurd h (by simp)
    · rename_i hs
      split at h
      · exact absurd h (by simp)
      · rename_i x blocks1 prints1 hgo
        simp only [Option.some.injEq, Prod.mk.injEq] at h
        obtain ⟨rfl, rfl, rfl, rfl⟩ := h
        exact ⟨hs, hgo⟩
  · exact absurd h (by simp)

lemma block_solve2_parts {d : DataSet} {m nb : Int} {blocks : List Int}
    {prints pr : List Nat} {sol : Solution2}
    (h1 : solveBlocks2 d = some (m, nb, blocks, prints))
    (h2 : block_solve2 d = some (sol, pr)) :
    ∃ arr, build2Go blocks m d.safety_time (List.range nb.toNat)
        (List.replicate d.num_aircraft (-1)) = some arr ∧
      sol = ⟨d.num_aircraft, arr⟩ ∧ pr = prints := by
  unfold block_solve2 at h2
  rw [h1] at h2
  have h4 : (match build2Go blocks m d.safety_time (List.range nb.toNat)
      (List.replicate d.num_aircraft (-1)) with
    | none => none
    | some arr => some ((⟨d.num_aircraft, arr⟩ : Solution2), prints)) = some (sol, pr) := h2
  cases hbuild : build2Go blocks m d.safety_time (List.range nb.toNat)
      (List.replicate d.num_aircraft (-1)) with
  | none =>
    rw [hbuild] at h4
    exact absurd h4 (by simp)
  | some arr =>
    rw [hbuild] at h4
    have h3 : some ((⟨d.num_aircraft, arr⟩ : Solution2), prints) = some (sol, pr) := h4
    cases h3
    exact ⟨arr, rfl, rfl, rfl⟩

/-! ## Claim theorems -/

/-- C1: the claim says `is_valid` accepts only if every pair of assigned
aircraft is separated by at least `safety_time`.  The code has the
comparison inverted: it ACCEPTS the arrivals `[0, 5]` although their
separation `5` is below the safety time `10`, and it REJECTS the
well-separated in-window arrivals `[0, 20]`.  This contradicts the
documentation of the method itself ("Return whether solution satisfies all
constraints"), so the code, not the claim, is wrong. -/
theorem C1_inverted_check :
    is_valid dsC1 [0, 5] = some true ∧
    |(0 : Int) - 5| < dsC1.safety_time ∧
    is_valid dsC1 [0, 20] = some false := by decide

/-- C2 (counterexample): the claim demands the STRICT window condition
`earliest[i] < arrival[i]` for every assigned aircraft, but on `dsA`
the allocator of `solver.py` assigns aircraft `0` the arrival time `0`,
which EQUALS its earliest time — the code checks the window
inclusively. -/
theorem C2_counterexample :
    block_solve1 dsA 0 0 = some solA ∧
    solA.arrival_times.getD 0 0 = dsA.earliest.getD 0 0 ∧
    ¬ (dsA.earliest.getD 0 0 < solA.arrival_times.getD 0 0) := by decide

/-- C2 (amended): every aircraft assigned an arrival time by
`block_solve` of `solver.py` satisfies the INCLUSIVE window condition
`earliest[i] ≤ arrival[i] ≤ latest[i]`. -/
theorem C2_window_inclusive (d : DataSet) (startT endT : Int) (sol : Solution1)
    (h : block_solve1 d startT endT = some sol) (i : Nat) (hi : i < d.num_aircraft)
    (hne : sol.arrival_times.getD i 0 ≠ -1) :
    ∃ e l, pyGet d.earliest (i : Int) = some e ∧ pyGet d.latest (i : Int) = some l ∧
      e ≤ sol.arrival_times.getD i 0 ∧ sol.arrival_times.getD i 0 ≤ l := by
  obtain ⟨hs, hlen, m, nb, blocks, hblocks, hok, hchar⟩ := block_solve1_char h
  rcases hchar i hi with hbad | ⟨j, hjlt, hjv, hval⟩
  · exact absurd hbad hne
  · obtain ⟨p, hp, hpn, e, l, he, hl, h1, h2⟩ := hok j hjlt (by rw [hjv]; omega)
    have hpi : p = i := by
      have : (p : Int) = (i : Int) := by rw [← hp, hjv]
      exact_mod_cast this
    subst hpi
    refine ⟨e, l, he, hl, ?_, ?_⟩
    · rw [hval]; linarith
    · rw [hval]; linarith

/-- C2 (witness): the amended window theorem applied to `dsA`. -/
theorem C2_witness :
    ∃ e l, pyGet dsA.earliest (0 : Int) = some e ∧ pyGet dsA.latest (0 : Int) = some l ∧
      e ≤ solA.arrival_times.getD 0 0 ∧ solA.arrival_times.getD 0 0 ≤ l :=
  C2_window_inclusive dsA 0 0 solA (by decide) 0 (by decide) (by decide)

/-- C4: in any solution returned by `block_solve` of `solver.py`, two
distinct aircraft that are both assigned (entry distinct from the `-1`
sentinel) never receive the same arrival time: they occupy distinct
blocks, whose times differ because the spacing `safety_time` is nonzero
on every successful run. -/
theorem C4_distinct_arrivals (d : DataSet) (startT endT : Int) (sol : Solution1)
    (h : block_solve1 d startT endT = some sol) (i k : Nat)
    (hi : i < d.num_aircraft) (hk : k < d.num_aircraft) (hik : i ≠ k)
    (hai : sol.arrival_times.getD i 0 ≠ -1) (hak : sol.arrival_times.getD k 0 ≠ -1) :
    sol.arrival_times.getD i 0 ≠ sol.arrival_times.getD k 0 := by
  obtain ⟨hs, hlen, m, nb, blocks, hblocks, hok, hchar⟩ := block_solve1_char h
  rcases hchar i hi with hbad | ⟨j1, hj1lt, hj1v, hval1⟩
  · exact absurd hbad hai
  rcases hchar k hk with hbad | ⟨j2, hj2lt, hj2v, hval2⟩
  · exact absurd hbad hak
  intro heq
  have hjne : j1 ≠ j2 := by
    intro hjj
    subst hjj
    rw [hj1v] at hj2v
    exact hik (by exact_mod_cast hj2v)
  rw [hval1, hval2] at heq
  have h1 : (j1 : Int) * d.safety_time = (j2 : Int) * d.safety_time := by linarith
  have h2 := mul_right_cancel₀ hs h1
  exact hjne (by exact_mod_cast h2)

/-- C4 (witness): the two aircraft of `dsB` receive the distinct
arrival times `0` and `10`. -/
theorem C4_witness : solB.arrival_times.getD 0 0 ≠ solB.arrival_times.getD 1 0 :=
  C4_distinct_arrivals dsB 0 0 solB (by decide) 0 1 (by decide) (by decide)
    (by decide) (by decide) (by decide)

/-- C3: the claim requires an `InfeasibleInput` failure returning
no result at all when `num_blocks ≤ 0`.  Instead, `block_solve` of
`block_solver.py` builds a zero-length block table and RETURNS a
solution with every aircraft unassigned (printing "no spot"), while
`block_solve` of `solver.py` dies with an accidental
`ZeroDivisionError` in its spacing computation (modelled by `none`). -/
theorem C3_no_infeasible_signal :
    block_solve2 dsC3 = some (⟨1, [-1]⟩, [0]) ∧
    block_solve1 dsC3 0 0 = none := by decide

/-- C6: the claim says `total_deviation` sums only over assigned
aircraft and is `0` when nothing is assigned.  `get_objective` of
`solver.py` sums over ALL aircraft, counting the `-1` sentinel of the
unassigned aircraft as an arrival: on `dsC6` with nothing assigned it
returns `|-1 - 5| = 6`, not `0`. -/
theorem C6_objective_counts_sentinel :
    get_objective dsC6 [-1] = some 6 ∧ (6 : Int) ≠ 0 := by decide

/-- C7: the claim says the mean deviation divides by the count of
ASSIGNED aircraft and fails with `DivisionUndefined` exactly when that
count is zero.  `get_deviation` of `solver.py` divides by
`len(arrival_times)` — the TOTAL aircraft count: with one aircraft and
nothing assigned it silently returns `6`, and it only crashes (with an
unguarded `ZeroDivisionError`) when the aircraft list itself is empty. -/
theorem C7_divides_by_total_count :
    get_deviation dsC6 [-1] = some 6 ∧
    get_deviation dsEmpty [] = none := by
  constructor
  · have hobj : objGo dsC6 [-1] (List.range [(-1 : Int)].length) 0 = some 6 := by decide
    rw [get_deviation, hobj]
    norm_num
  · rfl

/-- C8: the claim requires unassigned aircraft to be reported to the
caller as data with no console printing.  On `dsC8`, `block_solve` of
`block_solver.py` does keep allocating after aircraft `0` fails
(aircraft `1` still lands at time `10`), but it reports the failure by
PRINTING "Airplane 0 no spot" (the returned print log `[0]` is
nonempty) and returns no unassigned list to the caller. -/
theorem C8_prints_instead_of_data :
    block_solve2 dsC8 = some (⟨2, [-1, 10]⟩, [0]) ∧
    ([0] : List Nat) ≠ [] := by decide

/-- C5 (counterexample): the claim says both candidates are CLAMPED
into `0..num_blocks-1`.  The code clamps `b1 = max(b0-k, 0)` only from
below: on `dsC5` the nominal block is `round(19/10) = 2` while only
block `0` exists, so the very first lookup `blocks[2]` raises
`IndexError` (the run returns `none`), whereas the search described by
the claim would clamp `2` to `0` and assign the empty in-window
block `0`. -/
theorem C5_counterexample :
    block_solve1 dsC5 0 0 = none ∧
    search1 [(-1)] 1 10 0 0 19 2 (List.range 1) = none ∧
    clampedSearch [(-1)] 1 10 0 0 19 2 (List.range 1) = some 0 := by decide

/-- C5 (amended): whenever the nominal block `b0` itself lies inside
`0..num_blocks-1`, the search of `block_solve` in `solver.py` agrees
with the claimed clamped candidate order (`clamp(b0-k)` before
`clamp(b0+k)`, first empty in-window candidate wins; `-1` = exhausted);
only for `b0` outside that range does the code deviate (one-sided
clamping, crashing on `blocks[b0 - k]` for `b0 ≥ num_blocks`). -/
theorem C5_clamped_equiv (blocks : List Int) (nb s m e l b0 : Int)
    (h0 : 0 ≤ b0) (h1 : b0 < nb) (hlen : blocks.length = nb.toNat) :
    ∀ ks : List Nat, search1 blocks nb s m e l b0 ks =
      some ((clampedSearch blocks nb s m e l b0 ks).getD (-1)) := by
  intro ks
  induction ks with
  | nil => rfl
  | cons k ks ih =>
    have hb1 : max (min (b0 - (k : Int)) (nb - 1)) 0 = max (b0 - (k : Int)) 0 := by
      omega
    have hb2 : max (min (b0 + (k : Int)) (nb - 1)) 0 = min (b0 + (k : Int)) (nb - 1) := by
      omega
    have hg1 : pyGet blocks (max (b0 - (k : Int)) 0) =
        some (blocks.getD (max (b0 - (k : Int)) 0).toNat 0) := by
      refine pyGet_in_range (by omega) ?_
      rw [hlen]
      omega
    have hg2 : pyGet blocks (min (b0 + (k : Int)) (nb - 1)) =
        some (blocks.getD (min (b0 + (k : Int)) (nb - 1)).toNat 0) := by
      refine pyGet_in_range (by omega) ?_
      rw [hlen]
      omega
    simp only [search1, clampedSearch, hb1, hb2, hg1, hg2]
    by_cases hc1 : blocks.getD (max (b0 - (k : Int)) 0).toNat 0 = -1 ∧
        e ≤ max (b0 - (k : Int)) 0 * s + m ∧ max (b0 - (k : Int)) 0 * s + m ≤ l
    · rw [if_pos hc1, if_pos hc1]
      rfl
    · rw [if_neg hc1, if_neg hc1]
      by_cases hc2 : blocks.getD (min (b0 + (k : Int)) (nb - 1)).toNat 0 = -1 ∧
          e ≤ min (b0 + (k : Int)) (nb - 1) * s + m ∧
          min (b0 + (k : Int)) (nb - 1) * s + m ≤ l
      · rw [if_pos hc2, if_pos hc2]
        rfl
      · rw [if_neg hc2, if_neg hc2]
        exact ih

/-- C5 (witness): the equivalence applied to a one-block table with the
nominal block `0` in range. -/
theorem C5_witness :
    search1 [(-1)] 1 10 0 0 19 0 (List.range 1) =
      some ((clampedSearch [(-1)] 1 10 0 0 19 0 (List.range 1)).getD (-1)) :=
  C5_clamped_equiv [(-1)] 1 10 0 0 19 0 (by decide) (by decide) (by decide)
    (List.range 1)

/-- C9 (counterexample): on `dsC9` the block table after the loop is
`[-1, 0, 1]` — block `0` is the (largest) empty block — yet the
returned arrival of the last aircraft is `20` (its own block `2`), not
`min_earliest + 0 * safety = 0`: the write through index `-1` is later
OVERWRITTEN from the block of the last aircraft itself, so the unconditional
description of the returned value in the claim is false. -/
theorem C9_counterexample :
    solveBlocks2 dsC9 = some (0, 3, [-1, 0, 1], []) ∧
    block_solve2 dsC9 = some (⟨2, [10, 20]⟩, []) ∧
    (⟨2, [10, 20]⟩ : Solution2).arrival_times.getD 1 0 ≠ 0 + (0 : Int) * 10 := by decide

/-- C9 (amended): in `block_solve` of `block_solver.py`, if block `j`
is empty, every block after `j` is occupied, and no block after `j`
holds the last aircraft, then the returned arrival time of the last
aircraft (index `num_aircraft - 1`) is `min_earliest + j * safety_time`:
the write `arrival_times[blocks[j]]` with the `-1` marker as index is
the LAST write into that cell and lands on the last aircraft through the
negative indexing of Python. -/
theorem C9_sentinel_overwrite (d : DataSet) (m nb : Int) (blocks : List Int)
    (prints pr : List Nat) (sol : Solution2)
    (h1 : solveBlocks2 d = some (m, nb, blocks, prints))
    (h2 : block_solve2 d = some (sol, pr))
    (hn : 1 ≤ d.num_aircraft)
    (j : Nat) (hj : j < blocks.length) (hempty : blocks.getD j 0 = -1)
    (hlast : ∀ j1 : Nat, j1 < blocks.length → j < j1 →
      blocks.getD j1 0 ≠ -1 ∧ blocks.getD j1 0 ≠ ((d.num_aircraft - 1 : Nat) : Int)) :
    sol.arrival_times.getD (d.num_aircraft - 1) 0 = m + (j : Int) * d.safety_time := by
  obtain ⟨hs, hgo⟩ := solveBlocks2_parts h1
  have hinit : Blocks2Entries d.num_aircraft (List.replicate nb.toNat (-1)) := by
    intro j1 hj1 hne
    rw [List.length_replicate] at hj1
    exact absurd (getD_replicate _ _ _ hj1) hne
  have hents := solveGo2_entries hgo (fun i hi => List.mem_range.mp hi) hinit
  have hblen : blocks.length = nb.toNat := by
    rw [hents.2, List.length_replicate]
  obtain ⟨arr, hbuild, rfl, rfl⟩ := block_solve2_parts h1 h2
  have hacclen : (List.replicate d.num_aircraft (-1 : Int)).length = d.num_aircraft :=
    List.length_replicate _ _
  have hwrite : pyIdx (List.replicate d.num_aircraft (-1 : Int)).length
      (blocks.getD j 0) = some (d.num_aircraft - 1) := by
    rw [hacclen, hempty]
    exact pyIdx_neg_one _ hn
  have hmax : ∀ j1 ∈ List.range nb.toNat,
      pyIdx (List.replicate d.num_aircraft (-1 : Int)).length (blocks.getD j1 0) =
        some (d.num_aircraft - 1) → j1 ≤ j := by
    intro j1 hj1 hw
    by_contra hgt
    push_neg at hgt
    have hj1lt : j1 < blocks.length := by
      rw [hblen]
      exact List.mem_range.mp hj1
    obtain ⟨hne, hne2⟩ := hlast j1 hj1lt hgt
    obtain ⟨p, hp, hpn⟩ := hents.1 j1 hj1lt hne
    rw [hacclen, hp, pyIdx_coe _ _ hpn] at hw
    have hpval : p = d.num_aircraft - 1 := by simpa using hw
    exact hne2 (by rw [hp, hpval])
  have hmem : j ∈ List.range nb.toNat := List.mem_range.mpr (hblen ▸ hj)
  exact build2Go_lastwrite hbuild j (d.num_aircraft - 1) hmem
    (List.pairwise_lt_range _) hwrite hmax

/-- C9 (witness): on `dsC9w` the largest empty block is `2`, no later
block exists, and the last aircraft — itself unassigned — indeed comes
back with arrival `0 + 2 * 10 = 20`. -/
theorem C9_witness :
    solC9w.arrival_times.getD 1 0 = 0 + (2 : Int) * 10 :=
  C9_sentinel_overwrite dsC9w 0 3 [-1, 0, -1] [1] [1] solC9w (by decide) (by decide)
    (by decide) 2 (by decide) (by decide) (by decide)

/-- C10: the assignment computed by `block_solve` of `solver.py` is a
deterministic function of the dataset alone — the only run-dependent
inputs, the two wall-clock reads, influence nothing but the reported
`solving_time`. -/
theorem C10_deterministic (d : DataSet) (t0 t1 t2 t3 : Int) :
    Option.map Solution1.arrival_times (block_solve1 d t0 t1) =
    Option.map Solution1.arrival_times (block_solve1 d t2 t3) := by
  cases h : solveBlocks1 d with
  | none => simp [block_solve1, h]
  | some x =>
    obtain ⟨m, nb, blocks⟩ := x
    cases h2 : build1Go blocks m d.safety_time (List.range nb.toNat)
        (List.replicate d.num_aircraft (-1)) with
    | none => simp [block_solve1, h, h2]
    | some arr => simp [block_solve1, h, h2]

end Airplane
